import Mathlib

/-!
Verification of the localgpt provider abstraction layer
(`src/agent/providers.rs`, `src/agent/session_store.rs`) via a shallow
embedding in Lean 4.  Byte strings are modelled as `String` / `List Char`
(all inputs of interest are ASCII); JSON values are modelled by an
inductive `Json` type mirroring `serde_json::Value` on the fragment the
program exercises (objects, arrays, strings, booleans, null, integer
numbers).
-/

namespace LocalGPT

/-- Canonical message role (providers.rs `Role`). -/
inductive Role where
  | System
  | User
  | Assistant
  | Tool
deriving DecidableEq, Repr

/-- A structured tool invocation (providers.rs `ToolCall`). -/
structure ToolCall where
  id : String
  name : String
  arguments : String
deriving DecidableEq, Repr

/-- Canonical conversation message (providers.rs `Message`). -/
structure Message where
  role : Role
  content : String
  tool_calls : Option (List ToolCall)
  tool_call_id : Option String
deriving DecidableEq, Repr

/-- Advertised tool capability (providers.rs `ToolSchema`); the
`parameters` JSON value is represented after the `Json` type below, so
here we keep it abstract via a type parameter-free placeholder: the
claims never inspect `parameters`, only pass it through, so we model it
as an opaque `String` payload standing for the JSON-schema value. -/
structure ToolSchema where
  name : String
  description : String
  parameters : String
deriving DecidableEq, Repr

/-- Chat result (providers.rs `LLMResponse`). -/
inductive LLMResponse where
  | Text (t : String)
  | ToolCalls (calls : List ToolCall)
deriving DecidableEq, Repr

/-- One streaming delta (providers.rs `StreamChunk`). -/
structure StreamChunk where
  delta : String
  done : Bool
deriving DecidableEq, Repr

/-- Association-list lookup, modelling `HashMap::get`. -/
def lookupA {α : Type} (k : String) : List (String × α) → Option α
  | [] => none
  | (k', v) :: rest => if k' = k then some v else lookupA k rest

/-- Association-list insert (replace-or-append), modelling `HashMap::insert`. -/
def insertA {α : Type} (k : String) (v : α) : List (String × α) → List (String × α)
  | [] => [(k, v)]
  | (k', v') :: rest => if k' = k then (k, v) :: rest else (k', v') :: insertA k v rest

/-- Association-list removal, modelling `HashMap::remove`. -/
def removeA {α : Type} (k : String) : List (String × α) → List (String × α)
  | [] => []
  | (k', v') :: rest => if k' = k then rest else (k', v') :: removeA k rest

/-- JSON values, mirroring `serde_json::Value` on the fragment used by the
program.  Numbers are modelled as integers: no claim involves fractional
numeric literals. -/
inductive Json where
  | null
  | bool (b : Bool)
  | num (n : Int)
  | str (s : String)
  | arr (elems : List Json)
  | obj (fields : List (String × Json))

/-- Field presence test on a JSON object, modelling `Value::get(&str)`:
`Some` exactly when the value is an object carrying the key. -/
def Json.getF : Json → String → Option Json
  | .obj fields, k => lookupA k fields
  | _, _ => none

/-- Read-indexing `value[key]`, modelling serde's `Index<&str>` for reads:
missing key or non-object yields `Null`. -/
def Json.idx (j : Json) (k : String) : Json :=
  (j.getF k).getD .null

/-- Array element access, modelling `Value::get(usize)`. -/
def Json.getIdx : Json → Nat → Option Json
  | .arr elems, i => elems.get? i
  | _, _ => none

/-- `Value::as_str`. -/
def Json.asStr : Json → Option String
  | .str s => some s
  | _ => none

/-- `Value::as_bool`. -/
def Json.asBool : Json → Option Bool
  | .bool b => some b
  | _ => none

/-- `Value::as_array`. -/
def Json.asArr : Json → Option (List Json)
  | .arr elems => some elems
  | _ => none

/-- JSON whitespace skipping. -/
def skipWs : List Char → List Char
  | [] => []
  | c :: cs => if c = ' ' ∨ c = '\n' ∨ c = '\t' ∨ c = '\r' then skipWs cs else c :: cs

/-- Parse the body of a JSON string literal after the opening quote,
returning the decoded string and the remaining input.  Models
`serde_json` string parsing on inputs without `\u`, `\b`, `\f` escapes
(none of which occur in the program's inputs of interest). -/
def parseStringBody : List Char → Option (String × List Char)
  | [] => none
  | c :: cs =>
    if c = '"' then some ("", cs)
    else if c = '\\' then
      match cs with
      | [] => none
      | e :: cs' =>
        let ech : Option Char :=
          if e = '"' then some '"'
          else if e = '\\' then some '\\'
          else if e = '/' then some '/'
          else if e = 'n' then some '\n'
          else if e = 't' then some '\t'
          else if e = 'r' then some '\r'
          else none
        match ech with
        | some ch => (parseStringBody cs').map (fun p => (String.mk (ch :: p.1.toList), p.2))
        | none => none
    else (parseStringBody cs).map (fun p => (String.mk (c :: p.1.toList), p.2))

/-- Numeric value of a list of decimal digits. -/
def digitsVal (l : List Char) : Nat :=
  l.foldl (fun n c => n * 10 + (c.toNat - 48)) 0

/-- Parse a JSON integer literal (optional minus, digits).  A fractional
part or exponent makes the parse fail in this model; no claim involves
non-integer numbers. -/
def parseNumber (input : List Char) : Option (Json × List Char) :=
  let p : Bool × List Char := match input with
    | '-' :: r => (true, r)
    | _ => (false, input)
  let digits := p.2.takeWhile (fun c => c.isDigit)
  let rest := p.2.dropWhile (fun c => c.isDigit)
  if digits.isEmpty then none
  else
    let n : Int := if p.1 then -(digitsVal digits : Int) else (digitsVal digits : Int)
    match rest with
    | c :: _ => if c = '.' ∨ c = 'e' ∨ c = 'E' then none else some (.num n, rest)
    | [] => some (.num n, [])

mutual

/-- Fuel-indexed JSON value parser (models `serde_json::from_str` on the
fragment described at `Json`). -/
def parseValue : Nat → List Char → Option (Json × List Char)
  | 0, _ => none
  | fuel + 1, input =>
    match skipWs input with
    | [] => none
    | c :: cs =>
      if c = '\x7b' then
        match skipWs cs with
        | '\x7d' :: r => some (.obj [], r)
        | rest => parseMembers fuel rest []
      else if c = '[' then
        match skipWs cs with
        | ']' :: r => some (.arr [], r)
        | rest => parseElems fuel rest []
      else if c = '"' then
        (parseStringBody cs).map (fun p => (.str p.1, p.2))
      else if c = 't' then
        match cs with
        | 'r' :: 'u' :: 'e' :: r => some (.bool true, r)
        | _ => none
      else if c = 'f' then
        match cs with
        | 'a' :: 'l' :: 's' :: 'e' :: r => some (.bool false, r)
        | _ => none
      else if c = 'n' then
        match cs with
        | 'u' :: 'l' :: 'l' :: r => some (.null, r)
        | _ => none
      else if c = '-' ∨ c.isDigit then
        parseNumber (c :: cs)
      else none

/-- Parse the members of a JSON object after the opening brace. -/
def parseMembers : Nat → List Char → List (String × Json) → Option (Json × List Char)
  | 0, _, _ => none
  | fuel + 1, input, acc =>
    match skipWs input with
    | '"' :: cs =>
      match parseStringBody cs with
      | none => none
      | some (key, r1) =>
        match skipWs r1 with
        | ':' :: r2 =>
          match parseValue fuel r2 with
          | none => none
          | some (v, r3) =>
            match skipWs r3 with
            | ',' :: r4 => parseMembers fuel r4 (acc ++ [(key, v)])
            | '\x7d' :: r4 => some (.obj (acc ++ [(key, v)]), r4)
            | _ => none
        | _ => none
    | _ => none

/-- Parse the elements of a JSON array after the opening bracket. -/
def parseElems : Nat → List Char → List Json → Option (Json × List Char)
  | 0, _, _ => none
  | fuel + 1, input, acc =>
    match parseValue fuel input with
    | none => none
    | some (v, r1) =>
      match skipWs r1 with
      | ',' :: r2 => parseElems fuel r2 (acc ++ [v])
      | ']' :: r2 => some (.arr (acc ++ [v]), r2)
      | _ => none

end

/-- Parse a complete JSON document (`serde_json::from_str`): the value
must consume the whole input up to trailing whitespace. -/
def jsonParse (input : List Char) : Option Json :=
  match parseValue (input.length + 1) input with
  | some (j, rest) => if skipWs rest = [] then some j else none
  | none => none

/-- `serde_json::from_str` applied to a `String`. -/
def jsonParseStr (s : String) : Option Json :=
  jsonParse s.toList

/-!
## Provider contract: the generic `chat_stream` fallback

`LLMProvider::chat_stream` (providers.rs lines 68–87) is a default trait
method: it calls `self.chat(messages, None)`, turns a `Text` result into
a single terminal chunk, and errors on `ToolCalls`.  We model the
underlying `chat` as an explicit function argument; errors are `Except`
with the message string the source produces. -/

/-- The default `chat_stream` implementation (providers.rs 68–87).  The
`tools` argument is received but the underlying `chat` is invoked with
`none`, exactly as the source passes `None`. -/
def chat_stream_default
    (chat : List Message → Option (List ToolSchema) → Except String LLMResponse)
    (messages : List Message) (tools : Option (List ToolSchema)) :
    Except String (List StreamChunk) :=
  let _ := tools
  match chat messages none with
  | .error e => .error e
  | .ok (.Text t) => .ok [⟨t, true⟩]
  | .ok (.ToolCalls _) => .error "Tool calls not supported in streaming"

/-!
## Dialect A: OpenAIProvider
-/

/-- One message of `OpenAIProvider::format_messages` (providers.rs
179–216): role/content object, plus a parallel `tool_calls` array and a
`tool_call_id` field when present.  The source mutates the object with
`msg["tool_calls"] = ...`; on these fresh objects that inserts a new key,
modelled by appending the field. -/
def openai_format_one (m : Message) : Json :=
  let base : List (String × Json) :=
    [("role", .str (match m.role with
        | .System => "system"
        | .User => "user"
        | .Assistant => "assistant"
        | .Tool => "tool")),
     ("content", .str m.content)]
  let withTc : List (String × Json) :=
    match m.tool_calls with
    | some tcs =>
      base ++ [("tool_calls", .arr (tcs.map (fun tc =>
        .obj [("id", .str tc.id),
              ("type", .str "function"),
              ("function", .obj [("name", .str tc.name),
                                 ("arguments", .str tc.arguments)])])))]
    | none => base
  let withId : List (String × Json) :=
    match m.tool_call_id with
    | some tci => withTc ++ [("tool_call_id", .str tci)]
    | none => withTc
  .obj withId

/-- `OpenAIProvider::format_messages`: a 1:1 map over the message list. -/
def openai_format_messages (messages : List Message) : List Json :=
  messages.map openai_format_one

/-- The response-parsing part of `OpenAIProvider::chat` (providers.rs
254–288), as a pure function of the decoded response body.  Error
payload values are not re-serialized into the message text in this
model (the source interpolates them for display only). -/
def openai_parse_response (body : Json) : Except String LLMResponse :=
  match body.getF "error" with
  | some _ => .error "OpenAI API error"
  | none =>
    match (body.idx "choices").getIdx 0 with
    | none => .error "No choices in response"
    | some choice =>
      let message := choice.idx "message"
      let viaToolCalls : Option LLMResponse :=
        match message.getF "tool_calls" with
        | some tcv =>
          match tcv.asArr with
          | some calls =>
            let parsed : List ToolCall := calls.map (fun tc =>
              { id := ((tc.idx "id").asStr).getD ""
                name := (((tc.idx "function").idx "name").asStr).getD ""
                arguments := (((tc.idx "function").idx "arguments").asStr).getD "\x7b\x7d" })
            if parsed.isEmpty then none else some (.ToolCalls parsed)
          | none => none
        | none => none
      match viaToolCalls with
      | some r => .ok r
      | none => .ok (.Text (((message.idx "content").asStr).getD ""))

/-!
## Dialect B: AnthropicProvider request translation
-/

/-- One loop iteration of `AnthropicProvider::format_messages`
(providers.rs 340–392): the accumulator is the pair
(current system prompt, formatted messages so far). -/
def anthropic_format_step (acc : Option String × List Json) (m : Message) :
    Option String × List Json :=
  match m.role with
  | .System => (some m.content, acc.2)
  | .User => (acc.1, acc.2 ++ [.obj [("role", .str "user"), ("content", .str m.content)]])
  | .Assistant =>
    match m.tool_calls with
    | some tcs =>
      let tool_use : List Json := tcs.map (fun tc =>
        .obj [("type", .str "tool_use"),
              ("id", .str tc.id),
              ("name", .str tc.name),
              ("input", (jsonParseStr tc.arguments).getD (.obj []))])
      (acc.1, acc.2 ++ [.obj [("role", .str "assistant"), ("content", .arr tool_use)]])
    | none =>
      (acc.1, acc.2 ++ [.obj [("role", .str "assistant"), ("content", .str m.content)]])
  | .Tool =>
    match m.tool_call_id with
    | some tci =>
      (acc.1, acc.2 ++ [.obj [("role", .str "user"),
        ("content", .arr [.obj [("type", .str "tool_result"),
                                ("tool_use_id", .str tci),
                                ("content", .str m.content)]])]])
    | none => acc

/-- `AnthropicProvider::format_messages` (providers.rs 340–392): returns
the optional top-level system prompt and the formatted message array. -/
def anthropic_format_messages (messages : List Message) : Option String × List Json :=
  messages.foldl anthropic_format_step (none, [])

/-- Specification-side description for comparison: the content of the
last System-role message of the list, if any (first System message of
the reversed list). -/
def spec_lastSystemContent (messages : List Message) : Option String :=
  (messages.reverse.find? (fun m => m.role = .System)).map (fun m => m.content)

/-- Specification-side description for comparison: the content of the
FIRST System-role message of the list, if any — the shape the claim
asserts for Dialect B's top-level system field. -/
def spec_firstSystemContent (messages : List Message) : Option String :=
  (messages.find? (fun m => m.role = .System)).map (fun m => m.content)

/-!
## OllamaProvider streaming adapter (providers.rs 621–659)

The adapter appends each received byte chunk to a text buffer, then
repeatedly splits off the prefix up to the next newline, dropping empty
lines, parsing each line as JSON, and emitting one `StreamChunk` per
line that parses (`delta` from `message.content`, `done` from `done`,
with defaults).  Transport errors terminate the stream; the claims below
concern only successfully delivered chunks, so the model takes the list
of delivered byte chunks. -/

/-- Split a buffer at the first newline: `buffer.find('\n')` plus the
two slices `buffer[..pos]` / `buffer[pos+1..]`. -/
def splitFirstNL : List Char → Option (List Char × List Char)
  | [] => none
  | c :: cs =>
    if c = '\n' then some ([], cs)
    else (splitFirstNL cs).map (fun p => (c :: p.1, p.2))

/-- Processing of one extracted line (providers.rs 635–650): empty lines
are skipped, unparseable lines are dropped, parsed lines emit one chunk
with `delta = json.message.content` (default "") and
`done = json.done` (default false). -/
def emitLine (line : List Char) : List StreamChunk :=
  if line.isEmpty then []
  else
    match jsonParse line with
    | some j =>
      [⟨((j.idx "message" |>.idx "content").asStr).getD "",
        ((j.idx "done").asBool).getD false⟩]
    | none => []

/-- Fuel-indexed inner loop (providers.rs 631–651): extract complete
lines from the buffer while a newline is present; returns the emitted
chunks and the remaining (partial-line) buffer.  Each iteration removes
at least the newline, so `buffer.length + 1` fuel always suffices. -/
def drainBufferF : Nat → List Char → List StreamChunk × List Char
  | 0, buf => ([], buf)
  | fuel + 1, buf =>
    match splitFirstNL buf with
    | none => ([], buf)
    | some (line, rest) =>
      let p := drainBufferF fuel rest
      (emitLine line ++ p.1, p.2)

/-- Line-extraction loop with sufficient fuel. -/
def drain (buf : List Char) : List StreamChunk × List Char :=
  drainBufferF (buf.length + 1) buf

/-- The whole adapter over a list of delivered byte chunks, threading
the partial-line buffer; the trailing buffer at end of stream is
discarded, as in the source. -/
def processChunks : List (List Char) → List Char → List StreamChunk
  | [], _ => []
  | c :: cs, buf =>
    let p := drain (buf ++ c)
    p.1 ++ processChunks cs p.2

/-- `OllamaProvider::chat_stream`'s chunk sequence as a function of the
delivered byte chunks, starting from an empty buffer. -/
def ollama_stream_chunks (chunks : List (List Char)) : List StreamChunk :=
  processChunks chunks []

/-!
## Provider selector (`create_provider`, providers.rs 90–143)
-/

/-- `str::starts_with` on strings. -/
def startsWithStr (s p : String) : Bool :=
  p.toList.isPrefixOf s.toList

/-- `str::strip_prefix`. -/
def stripPfx (s p : String) : Option String :=
  if startsWithStr s p then some (String.mk (s.toList.drop p.toList.length)) else none

/-- `normalize_claude_model` (providers.rs 756–764). -/
def normalize_claude_model (model : String) : String :=
  let lower := model.toLower
  if lower = "opus" ∨ lower = "opus-4.5" ∨ lower = "opus-4" ∨ lower = "claude-opus-4-5" then
    "opus"
  else if lower = "sonnet" ∨ lower = "sonnet-4.5" ∨ lower = "sonnet-4.1" ∨
      lower = "claude-sonnet-4-5" then
    "sonnet"
  else if lower = "haiku" ∨ lower = "haiku-3.5" ∨ lower = "claude-haiku-3-5" then
    "haiku"
  else lower

structure OpenAIConfig where
  api_key : String
  base_url : String
deriving DecidableEq, Repr

structure AnthropicConfig where
  api_key : String
  base_url : String
deriving DecidableEq, Repr

structure OllamaConfig where
  endpoint : String
deriving DecidableEq, Repr

structure ClaudeCliConfig where
  command : String
  model : String
deriving DecidableEq, Repr

structure ProvidersConfig where
  openai : Option OpenAIConfig
  anthropic : Option AnthropicConfig
  ollama : Option OllamaConfig
  claude_cli : Option ClaudeCliConfig
deriving DecidableEq, Repr

/-- The configuration slice `create_provider` consumes: the provider
table plus `config.workspace_path()`. -/
structure Config where
  providers : ProvidersConfig
  workspace : String
deriving DecidableEq, Repr

/-- The identity of the provider instance `create_provider` returns
(constructor arguments of the respective `new`); `claude_cli` carries
the normalized model, as `ClaudeCliProvider::new` normalizes it. -/
inductive ProviderInst where
  | openai (api_key base_url model : String)
  | anthropic (api_key base_url model : String)
  | ollama (endpoint model : String)
  | claude_cli (command model workspace : String)
deriving DecidableEq, Repr

/-- `create_provider` (providers.rs 90–143). -/
def create_provider (model : String) (config : Config) : Except String ProviderInst :=
  let workspace := config.workspace
  if startsWithStr model "claude-cli/" then
    let model_name := (stripPfx model "claude-cli/").getD "opus"
    let command := (config.providers.claude_cli.map (fun c => c.command)).getD "claude"
    .ok (.claude_cli command (normalize_claude_model model_name) workspace)
  else if startsWithStr model "gpt-" ∨ startsWithStr model "o1" then
    match config.providers.openai with
    | none => .error "OpenAI provider not configured"
    | some oc => .ok (.openai oc.api_key oc.base_url model)
  else if startsWithStr model "claude-" then
    match config.providers.anthropic with
    | none => .error "Anthropic provider not configured"
    | some ac => .ok (.anthropic ac.api_key ac.base_url model)
  else
    match config.providers.ollama with
    | some oc => .ok (.ollama oc.endpoint model)
    | none =>
      match config.providers.claude_cli with
      | some cc => .ok (.claude_cli cc.command (normalize_claude_model cc.model) workspace)
      | none => .error ("Unknown model or provider not configured: " ++ model)

/-!
## ClaudeCliProvider (providers.rs 665–938)

The provider's mutable state is the continuation-token slot
`cli_session_id` (a mutex-guarded `Option<String>` in the source,
modelled as a plain field with explicit state passing).  Process
execution is external: the per-turn logic is split into the argument
builder and the post-execution step, both pure. -/

structure ClaudeCliProvider where
  command : String
  model : String
  workspace : String
  session_key : String
  localgpt_session_id : String
  cli_session_id : Option String
deriving DecidableEq, Repr

/-- `build_prompt_from_messages` (providers.rs 766–774): content of the
most recent User-role message, or "". -/
def build_prompt_from_messages (messages : List Message) : String :=
  ((messages.reverse.find? (fun m => m.role = .User)).map (fun m => m.content)).getD ""

/-- `extract_system_prompt` (providers.rs 776–781): content of the first
System-role message, if any. -/
def extract_system_prompt (messages : List Message) : Option String :=
  (messages.find? (fun m => m.role = .System)).map (fun m => m.content)

/-- `parse_claude_cli_output` (providers.rs 784–810): on JSON stdout,
text from the first present of result/message/content (string value
required, else trimmed raw stdout), token from the first present of
session_id/sessionId/conversation_id/conversationId; on non-JSON
stdout, trimmed raw stdout and no token. -/
def parse_claude_cli_output (stdout : String) : String × Option String :=
  match jsonParseStr stdout with
  | some j =>
    let textField := (j.getF "result" <|> j.getF "message" <|> j.getF "content")
    let text := ((textField.bind Json.asStr)).getD stdout.trim
    let sidField := (j.getF "session_id" <|> j.getF "sessionId" <|>
      j.getF "conversation_id" <|> j.getF "conversationId")
    (text, sidField.bind Json.asStr)
  | none => (stdout.trim, none)

/-- The argument list `ClaudeCliProvider::chat` builds (providers.rs
833–868), given the fresh random session identifier `newUuid` that the
source draws when no continuation token is present. -/
def claude_cli_build_args (p : ClaudeCliProvider) (messages : List Message)
    (newUuid : String) : List String :=
  let prompt := build_prompt_from_messages messages
  let system_prompt := extract_system_prompt messages
  let is_first_turn := p.cli_session_id.isNone
  let args := ["-p", "--output-format", "json", "--dangerously-skip-permissions"]
  let args := if is_first_turn then args ++ ["--model", p.model] else args
  let args := if is_first_turn then
      match system_prompt with
      | some sys => args ++ ["--append-system-prompt", sys]
      | none => args
    else args
  let args := match p.cli_session_id with
    | some sid => args ++ ["--resume", sid]
    | none => args ++ ["--session-id", newUuid]
  args ++ [prompt]

/-- Captured result of the subprocess execution. -/
structure ProcOutput where
  success : Bool
  stdout : String
  stderr : String
deriving DecidableEq, Repr

/-- The post-execution part of `ClaudeCliProvider::chat` (providers.rs
889–917): non-zero exit is a hard failure carrying stderr; otherwise
stdout is parsed, the in-memory token slot is updated when a new token
was obtained, the token is persisted to the session store — with a
persistence failure (modelled by `saveOk = false`) only logged, never
affecting the state update or the returned result — and
`Text(response)` is returned. -/
def claude_cli_chat_step (p : ClaudeCliProvider) (out : ProcOutput) (saveOk : Bool) :
    Except String (LLMResponse × ClaudeCliProvider) :=
  if !out.success then
    .error ("Claude CLI failed: " ++ out.stderr)
  else
    let pr := parse_claude_cli_output out.stdout
    let p' := match pr.2 with
      | some sid =>
        let _ := saveOk
        { p with cli_session_id := some sid }
      | none => p
    .ok (.Text pr.1, p')

/-!
## Session store (session_store.rs)

The durable file is modelled as `Option (List (String × SessionEntry))`:
`some m` is a file parsing to the entry map `m`, `none` is a missing or
unparseable file (both degrade to an empty map on load).  Timestamps
(`chrono::Utc::now().timestamp_millis()`) are passed in explicitly. -/

structure SessionEntry where
  session_id : String
  updated_at : Nat
  cli_session_ids : List (String × String)
  claude_cli_session_id : Option String
  input_tokens : Option Nat
  output_tokens : Option Nat
  total_tokens : Option Nat
  compaction_count : Option Nat
deriving DecidableEq, Repr

/-- `SessionEntry::new` (session_store.rs 49–55). -/
def SessionEntry.new (session_id : String) (now : Nat) : SessionEntry :=
  { session_id := session_id
    updated_at := now
    cli_session_ids := []
    claude_cli_session_id := none
    input_tokens := none
    output_tokens := none
    total_tokens := none
    compaction_count := none }

/-- `SessionEntry::get_cli_session_id` (session_store.rs 58–76): the
per-provider map first, skipping an empty token; then, for "claude-cli"
only, the legacy mirror field, again skipping an empty token. -/
def SessionEntry.get_cli_session_id (e : SessionEntry) (provider : String) :
    Option String :=
  let fromMap : Option String :=
    match lookupA provider e.cli_session_ids with
    | some cid => if cid.isEmpty then none else some cid
    | none => none
  match fromMap with
  | some cid => some cid
  | none =>
    if provider = "claude-cli" then
      match e.claude_cli_session_id with
      | some cid => if cid.isEmpty then none else some cid
      | none => none
    else none

/-- `SessionEntry::set_cli_session_id` (session_store.rs 79–89). -/
def SessionEntry.set_cli_session_id (e : SessionEntry) (provider cid : String)
    (now : Nat) : SessionEntry :=
  let e := { e with cli_session_ids := insertA provider cid e.cli_session_ids }
  let e := if provider = "claude-cli" then { e with claude_cli_session_id := some cid } else e
  { e with updated_at := now }

/-- In-memory session store state (the file path is fixed per agent and
not modelled). -/
structure SessionStore where
  entries : List (String × SessionEntry)
deriving DecidableEq, Repr

/-- `SessionStore::load` (session_store.rs 100–123): a missing or
unparseable file yields an empty map. -/
def SessionStore.load (disk : Option (List (String × SessionEntry))) : SessionStore :=
  ⟨disk.getD []⟩

/-- `SessionStore::save` (session_store.rs 126–137): rewrites the whole
file with the current entry map. -/
def SessionStore.save (s : SessionStore) : Option (List (String × SessionEntry)) :=
  some s.entries

/-- `SessionStore::get`. -/
def SessionStore.get (s : SessionStore) (session_key : String) : Option SessionEntry :=
  lookupA session_key s.entries

/-- `SessionStore::get_or_create` (session_store.rs 145–149), returning
the fetched-or-created entry and the store holding it. -/
def SessionStore.get_or_create (s : SessionStore) (session_key session_id : String)
    (now : Nat) : SessionEntry × SessionStore :=
  match lookupA session_key s.entries with
  | some e => (e, s)
  | none =>
    let e := SessionEntry.new session_id now
    (e, ⟨insertA session_key e s.entries⟩)

/-- `SessionStore::update` (session_store.rs 152–160): fetch-or-create,
apply the mutator, refresh the timestamp, save.  Returns the new store;
the saved disk image is `SessionStore.save` of it. -/
def SessionStore.update (s : SessionStore) (session_key session_id : String)
    (f : SessionEntry → SessionEntry) (now : Nat) : SessionStore :=
  let p := s.get_or_create session_key session_id now
  let e := f p.1
  let e := { e with updated_at := now }
  ⟨insertA session_key e p.2.entries⟩

/-- `SessionStore::get_cli_session_id` (session_store.rs 163–167). -/
def SessionStore.get_cli_session_id (s : SessionStore) (session_key provider : String) :
    Option String :=
  (s.get session_key).bind (fun e => e.get_cli_session_id provider)

/-- `SessionStore::set_cli_session_id` (session_store.rs 170–180). -/
def SessionStore.set_cli_session_id (s : SessionStore)
    (session_key session_id provider cli_session_id : String) (now : Nat) : SessionStore :=
  s.update session_key session_id
    (fun e => e.set_cli_session_id provider cli_session_id now) now

/-- `clear_cli_session_from_store` (providers.rs 743–754): load, then
`update(key, "", ..)` removing the provider's token from the map and,
for "claude-cli", clearing the legacy mirror field; the update saves.
Returns the new disk image. -/
def clear_cli_session_from_store (disk : Option (List (String × SessionEntry)))
    (session_key provider : String) (now : Nat) :
    Option (List (String × SessionEntry)) :=
  let store := SessionStore.load disk
  let store := store.update session_key ""
    (fun e =>
      let e := { e with cli_session_ids := removeA provider e.cli_session_ids }
      if provider = "claude-cli" then { e with claude_cli_session_id := none } else e) now
  store.save

/-- `save_cli_session_to_store` (providers.rs 729–740): load, set,
save.  Returns the new disk image. -/
def save_cli_session_to_store (disk : Option (List (String × SessionEntry)))
    (session_key session_id provider cli_session_id : String) (now : Nat) :
    Option (List (String × SessionEntry)) :=
  ((SessionStore.load disk).set_cli_session_id session_key session_id provider
    cli_session_id now).save

/-- The two newline-terminated records of the streaming-adapter claim,
delivered as bytes:
`{"message":{"content":"Hel"},"done":false}\n{"message":{"content":"lo"},"done":true}\n`
(84 bytes; the first line is bytes 0–41, its newline byte 42, the second
line bytes 43–82, its newline byte 83). -/
def ollamaTwoLineInput : List Char :=
  ("\x7b\"message\":\x7b\"content\":\"Hel\"\x7d,\"done\":false\x7d\n" ++
   "\x7b\"message\":\x7b\"content\":\"lo\"\x7d,\"done\":true\x7d\n").toList

/-!
## Theorems
-/

/-- C8: the generic `chat_stream` fallback turns a `Text` result of the
underlying `chat` into exactly one chunk with the full text and
`done = true`, and fails with the unsupported-capability error on a
`ToolCalls` result, emitting no chunk. -/
theorem c8_stream_fallback
    (chat : List Message → Option (List ToolSchema) → Except String LLMResponse)
    (messages : List Message) (tools : Option (List ToolSchema)) :
    (∀ t, chat messages none = .ok (.Text t) →
      chat_stream_default chat messages tools = .ok [⟨t, true⟩]) ∧
    (∀ tcs, chat messages none = .ok (.ToolCalls tcs) →
      chat_stream_default chat messages tools =
        .error "Tool calls not supported in streaming") := by
  constructor <;> intro x h <;> simp [chat_stream_default, h]

/-- Witness for C8 at concrete providers. -/
theorem c8_stream_fallback_witness :
    chat_stream_default (fun _ _ => .ok (.Text "hi")) [] none = .ok [⟨"hi", true⟩] ∧
    chat_stream_default (fun _ _ => .ok (.ToolCalls [])) [] none =
      .error "Tool calls not supported in streaming" :=
  ⟨(c8_stream_fallback (fun _ _ => .ok (.Text "hi")) [] none).1 "hi" rfl,
   (c8_stream_fallback (fun _ _ => .ok (.ToolCalls [])) [] none).2 [] rfl⟩

/-- C9: the generic `chat_stream` fallback invokes the underlying `chat`
with `tools = none`: its result is unchanged by the tool list supplied
to `chat_stream`, and depends only on the underlying chat's behaviour
at `none` — so the provider reached through the fallback never receives
the caller's tool list. -/
theorem c9_fallback_drops_tools
    (chat₁ chat₂ : List Message → Option (List ToolSchema) → Except String LLMResponse)
    (messages : List Message) (tools tools' : Option (List ToolSchema))
    (h : chat₁ messages none = chat₂ messages none) :
    chat_stream_default chat₁ messages tools = chat_stream_default chat₂ messages tools' ∧
    chat_stream_default chat₁ messages tools = chat_stream_default chat₁ messages none := by
  constructor <;> simp [chat_stream_default, h]

/-- Witness for C9: two providers that differ only when given tools are
indistinguishable through the fallback, at a concrete tool list. -/
theorem c9_fallback_drops_tools_witness :
    chat_stream_default
        (fun _ t => match t with
          | some _ => .error "saw tools"
          | none => .ok (.Text "a")) [] (some [⟨"f", "d", "p"⟩]) =
      chat_stream_default (fun _ _ => .ok (.Text "a")) [] none ∧
    chat_stream_default
        (fun _ t => match t with
          | some _ => .error "saw tools"
          | none => .ok (.Text "a")) [] (some [⟨"f", "d", "p"⟩]) =
      chat_stream_default
        (fun _ t => match t with
          | some _ => .error "saw tools"
          | none => .ok (.Text "a")) [] none :=
  c9_fallback_drops_tools
    (fun _ t => match t with
      | some _ => .error "saw tools"
      | none => .ok (.Text "a"))
    (fun _ _ => .ok (.Text "a")) [] (some [⟨"f", "d", "p"⟩]) none rfl

/-- C10: `SessionEntry::get_cli_session_id` treats an empty-string token
as absent: when the per-provider map holds `""` for the provider and —
for "claude-cli" — the legacy mirror field is empty or unset, the lookup
returns `none`. -/
theorem c10_empty_token_absent (e : SessionEntry) (provider : String)
    (h1 : lookupA provider e.cli_session_ids = some "")
    (h2 : provider = "claude-cli" →
      e.claude_cli_session_id = none ∨ e.claude_cli_session_id = some "") :
    e.get_cli_session_id provider = none := by
  unfold SessionEntry.get_cli_session_id
  rw [h1]
  have he : ("" : String).isEmpty = true := rfl
  by_cases hp : provider = "claude-cli"
  · rcases h2 hp with h | h <;> simp [hp, h, he]
  · simp [hp, he]

/-- Witness for C10 at a concrete entry holding empty tokens. -/
theorem c10_empty_token_absent_witness :
    SessionEntry.get_cli_session_id
      ⟨"s", 0, [("claude-cli", "")], some "", none, none, none, none⟩ "claude-cli" =
      none :=
  c10_empty_token_absent
    ⟨"s", 0, [("claude-cli", "")], some "", none, none, none, none⟩ "claude-cli"
    rfl (fun _ => Or.inr rfl)

/-- C7: when the subprocess exits successfully and its output carries a
new continuation token, a session-store persistence failure is
swallowed: the chat step still returns `Text(response)` and the
in-memory token slot holds the new token, identically to the
successful-persistence case. -/
theorem c7_persist_failure_swallowed (p : ClaudeCliProvider) (out : ProcOutput)
    (resp tok : String) (hs : out.success = true)
    (hp : parse_claude_cli_output out.stdout = (resp, some tok)) :
    claude_cli_chat_step p out false =
      .ok (.Text resp, { p with cli_session_id := some tok }) ∧
    claude_cli_chat_step p out false = claude_cli_chat_step p out true := by
  unfold claude_cli_chat_step
  rw [hs, hp]
  simp

/-- Witness for C7 at a concrete successful run with a token. -/
theorem c7_persist_failure_swallowed_witness :
    claude_cli_chat_step ⟨"claude", "opus", "/w", "main", "lid", none⟩
        ⟨true, "\x7b\"result\":\"hi\",\"session_id\":\"tok\"\x7d", ""⟩ false =
      .ok (.Text "hi", ⟨"claude", "opus", "/w", "main", "lid", some "tok"⟩) ∧
    claude_cli_chat_step ⟨"claude", "opus", "/w", "main", "lid", none⟩
        ⟨true, "\x7b\"result\":\"hi\",\"session_id\":\"tok\"\x7d", ""⟩ false =
      claude_cli_chat_step ⟨"claude", "opus", "/w", "main", "lid", none⟩
        ⟨true, "\x7b\"result\":\"hi\",\"session_id\":\"tok\"\x7d", ""⟩ true :=
  c7_persist_failure_swallowed ⟨"claude", "opus", "/w", "main", "lid", none⟩
    ⟨true, "\x7b\"result\":\"hi\",\"session_id\":\"tok\"\x7d", ""⟩ "hi" "tok" rfl (by decide)

/-- C3: on a fresh continuation-token slot, the subprocess argument list
is the base flags, the model flag with the normalized alias, the
optional append-system-prompt argument, the new-session flag with the
fresh identifier, and the prompt — containing `--model` and
`--session-id` and no `--resume` emission; once a turn's step has stored
a token, the argument list is the base flags, `--resume` carrying
exactly that token, and the prompt — with no `--model` or `--session-id`
emission. -/
theorem c3_cli_args_session_flags (p : ClaudeCliProvider) (messages : List Message)
    (newUuid : String) :
    (p.cli_session_id = none →
      claude_cli_build_args p messages newUuid =
        ["-p", "--output-format", "json", "--dangerously-skip-permissions",
         "--model", p.model] ++
        (match extract_system_prompt messages with
          | some sys => ["--append-system-prompt", sys]
          | none => []) ++
        ["--session-id", newUuid, build_prompt_from_messages messages]) ∧
    (∀ tok, p.cli_session_id = some tok →
      claude_cli_build_args p messages newUuid =
        ["-p", "--output-format", "json", "--dangerously-skip-permissions",
         "--resume", tok, build_prompt_from_messages messages]) ∧
    (∀ out resp tok saveOk, out.success = true →
      parse_claude_cli_output out.stdout = (resp, some tok) →
      ∃ p', claude_cli_chat_step p out saveOk = .ok (.Text resp, p') ∧
        p'.cli_session_id = some tok) := by
  refine ⟨?_, ?_, ?_⟩
  · intro h
    cases hs : extract_system_prompt messages <;>
      simp [claude_cli_build_args, h, hs]
  · intro tok h
    simp [claude_cli_build_args, h]
  · intro out resp tok saveOk hs hp
    refine ⟨{ p with cli_session_id := some tok }, ?_, rfl⟩
    unfold claude_cli_chat_step
    rw [hs, hp]
    simp

/-- Witness for C3: fresh state and resumed state at concrete values. -/
theorem c3_cli_args_session_flags_witness :
    claude_cli_build_args ⟨"claude", "opus", "/w", "main", "lid", none⟩
        [⟨.User, "hi", none, none⟩] "u1" =
      ["-p", "--output-format", "json", "--dangerously-skip-permissions",
       "--model", "opus", "--session-id", "u1", "hi"] ∧
    claude_cli_build_args ⟨"claude", "opus", "/w", "main", "lid", some "tok"⟩
        [⟨.User, "hi", none, none⟩] "u1" =
      ["-p", "--output-format", "json", "--dangerously-skip-permissions",
       "--resume", "tok", "hi"] :=
  ⟨(c3_cli_args_session_flags ⟨"claude", "opus", "/w", "main", "lid", none⟩
      [⟨.User, "hi", none, none⟩] "u1").1 rfl,
   ((c3_cli_args_session_flags ⟨"claude", "opus", "/w", "main", "lid", some "tok"⟩
      [⟨.User, "hi", none, none⟩] "u1").2).1 "tok" rfl⟩

/-- A model identifier starting with "gpt-" or "o1" does not carry the
reserved "claude-cli/" prefix. -/
theorem gpt_family_not_cli_prefixed (m : String)
    (h : startsWithStr m "gpt-" = true ∨ startsWithStr m "o1" = true) :
    startsWithStr m "claude-cli/" = false := by
  have hg : ("gpt-").toList = ['g', 'p', 't', '-'] := rfl
  have ho : ("o1").toList = ['o', '1'] := rfl
  have hc : ("claude-cli/").toList =
      ['c', 'l', 'a', 'u', 'd', 'e', '-', 'c', 'l', 'i', '/'] := rfl
  unfold startsWithStr at h ⊢
  rw [hc]
  cases hm : m.toList with
  | nil =>
    rw [hm, hg, ho] at h
    rcases h with h | h <;> simp [List.isPrefixOf] at h
  | cons b bs =>
    rw [hm, hg, ho] at h
    have hb : b = 'g' ∨ b = 'o' := by
      rcases h with h | h <;> simp [List.isPrefixOf] at h <;>
        [exact Or.inl h.1.symm; exact Or.inr h.1.symm]
    rcases hb with hb | hb <;> subst hb <;> simp [List.isPrefixOf]

/-- C2: for every model identifier in the OpenAI-family prefix set
(`gpt-*` / `o1*`), the selector yields the missing-credentials
ConfigError when no OpenAI configuration is present, and the Dialect-A
(OpenAI) provider built from the configured credentials when it is —
irrespective of the local-inference and CLI-fallback configuration,
which are never consulted for such identifiers. -/
theorem c2_openai_selection (m : String) (config : Config)
    (h : startsWithStr m "gpt-" = true ∨ startsWithStr m "o1" = true) :
    (config.providers.openai = none →
      create_provider m config = .error "OpenAI provider not configured") ∧
    (∀ oc, config.providers.openai = some oc →
      create_provider m config = .ok (.openai oc.api_key oc.base_url m)) := by
  have hcc := gpt_family_not_cli_prefixed m h
  have hfam : (startsWithStr m "gpt-" ∨ startsWithStr m "o1") := by
    rcases h with h | h
    · exact Or.inl (by simp [h])
    · exact Or.inr (by simp [h])
  constructor
  · intro ho
    simp [create_provider, hcc, hfam, ho]
  · intro oc ho
    simp [create_provider, hcc, hfam, ho]

/-- Witness for C2 at model "gpt-4", with and without credentials. -/
theorem c2_openai_selection_witness :
    create_provider "gpt-4" ⟨⟨none, none, some ⟨"http://o"⟩, some ⟨"claude", "opus"⟩⟩, "/w"⟩ =
      .error "OpenAI provider not configured" ∧
    create_provider "gpt-4" ⟨⟨some ⟨"k", "http://a"⟩, none, some ⟨"http://o"⟩,
        some ⟨"claude", "opus"⟩⟩, "/w"⟩ =
      .ok (.openai "k" "http://a" "gpt-4") :=
  ⟨(c2_openai_selection "gpt-4"
      ⟨⟨none, none, some ⟨"http://o"⟩, some ⟨"claude", "opus"⟩⟩, "/w"⟩
      (Or.inl (by decide))).1 rfl,
   (c2_openai_selection "gpt-4"
      ⟨⟨some ⟨"k", "http://a"⟩, none, some ⟨"http://o"⟩, some ⟨"claude", "opus"⟩⟩, "/w"⟩
      (Or.inl (by decide))).2 ⟨"k", "http://a"⟩ rfl⟩

/-- C5: an Assistant message carrying ToolCalls
`[{id:"1", name:"f", arguments:"{\"x\":1}"}]` anywhere in a
conversation is translated by Dialect A's request formatting to a JSON
message which, placed in the corresponding response shape (first
choice's message), parses back to a ToolCalls result with the same id
and name and the identical arguments string (hence JSON-equal
arguments). -/
theorem c5_openai_toolcall_roundtrip (messages : List Message) (i : Nat) (c : String)
    (h : messages[i]? =
      some ⟨.Assistant, c, some [⟨"1", "f", "\x7b\"x\":1\x7d"⟩], none⟩) :
    ∃ j, (openai_format_messages messages)[i]? = some j ∧
      openai_parse_response (.obj [("choices", .arr [.obj [("message", j)]])]) =
        .ok (.ToolCalls [⟨"1", "f", "\x7b\"x\":1\x7d"⟩]) := by
  refine ⟨openai_format_one ⟨.Assistant, c, some [⟨"1", "f", "\x7b\"x\":1\x7d"⟩], none⟩,
    ?_, ?_⟩
  · simp [openai_format_messages, List.getElem?_map, h]
  · rfl

/-- Witness for C5 at a concrete one-message conversation. -/
theorem c5_openai_toolcall_roundtrip_witness :
    openai_parse_response (.obj [("choices", .arr [.obj [("message",
        openai_format_one ⟨.Assistant, "", some [⟨"1", "f", "\x7b\"x\":1\x7d"⟩], none⟩)]])]) =
      .ok (.ToolCalls [⟨"1", "f", "\x7b\"x\":1\x7d"⟩]) := by
  obtain ⟨j, h1, h2⟩ := c5_openai_toolcall_roundtrip
    [⟨.Assistant, "", some [⟨"1", "f", "\x7b\"x\":1\x7d"⟩], none⟩] 0 "" rfl
  have hj : j = openai_format_one
      ⟨.Assistant, "", some [⟨"1", "f", "\x7b\"x\":1\x7d"⟩], none⟩ := by
    have h0 : (openai_format_messages
        [⟨.Assistant, "", some [⟨"1", "f", "\x7b\"x\":1\x7d"⟩], none⟩])[0]? =
        some (openai_format_one
          ⟨.Assistant, "", some [⟨"1", "f", "\x7b\"x\":1\x7d"⟩], none⟩) := rfl
    rw [h0] at h1
    exact (Option.some.injEq _ _ ▸ h1).symm
  rw [← hj]
  exact h2

/-- C1 counterexample: with two System-role messages, Dialect B's
request translation sets the top-level system field to the content of
the LAST System message, not the first — the claim's "FIRST" fails at
`[System "A", System "B"]`. -/
theorem c1_counterexample :
    (anthropic_format_messages
        [⟨.System, "A", none, none⟩, ⟨.System, "B", none, none⟩]).1 ≠
      spec_firstSystemContent
        [⟨.System, "A", none, none⟩, ⟨.System, "B", none, none⟩] := by
  intro h
  have h1 : (anthropic_format_messages
      [⟨.System, "A", none, none⟩, ⟨.System, "B", none, none⟩]).1 = some "B" := rfl
  have h2 : spec_firstSystemContent
      [⟨.System, "A", none, none⟩, ⟨.System, "B", none, none⟩] = some "A" := rfl
  rw [h1, h2] at h
  simp at h

/-- The system-prompt slot of Dialect B's formatting loop equals the
content of the last System-role message seen, for any starting
accumulator. -/
theorem anthropic_fold_system (messages : List Message)
    (acc : Option String × List Json) :
    (messages.foldl anthropic_format_step acc).1 =
      match messages.reverse.find? (fun m => m.role = .System) with
      | some m => some m.content
      | none => acc.1 := by
  induction messages using List.reverseRecOn generalizing acc with
  | nil => rfl
  | append_singleton ms m ih =>
    rw [List.foldl_append]
    rw [List.reverse_append]
    simp only [List.reverse_singleton, List.singleton_append, List.find?]
    cases hr : m.role
    · simp [anthropic_format_step, hr, ih]
    · simp [anthropic_format_step, hr, ih]
    · cases htc : m.tool_calls <;> simp [anthropic_format_step, hr, htc, ih]
    · cases hti : m.tool_call_id <;> simp [anthropic_format_step, hr, hti, ih]

/-- The formatting loop only appends messages whose role field is
"user" or "assistant", for any starting accumulator. -/
theorem anthropic_fold_roles (messages : List Message)
    (acc : Option String × List Json)
    (hacc : ∀ j ∈ acc.2, j.idx "role" = .str "user" ∨ j.idx "role" = .str "assistant") :
    ∀ j ∈ (messages.foldl anthropic_format_step acc).2,
      j.idx "role" = .str "user" ∨ j.idx "role" = .str "assistant" := by
  induction messages generalizing acc with
  | nil => exact hacc
  | cons m ms ih =>
    refine ih (anthropic_format_step acc m) ?_
    intro j hj
    cases hr : m.role <;> simp only [anthropic_format_step, hr] at hj
    · exact hacc j hj
    · rcases List.mem_append.mp hj with hj | hj
      · exact hacc j hj
      · left
        simp at hj
        subst hj
        rfl
    · cases htc : m.tool_calls <;> rw [htc] at hj <;>
        rcases List.mem_append.mp hj with hj | hj
      · exact hacc j hj
      · right
        simp at hj
        subst hj
        rfl
      · exact hacc j hj
      · right
        simp at hj
        subst hj
        rfl
    · cases hti : m.tool_call_id <;> rw [hti] at hj
      · exact hacc j hj
      · rcases List.mem_append.mp hj with hj | hj
        · exact hacc j hj
        · left
          simp at hj
          subst hj
          rfl

/-- C1 amended: Dialect B's request translation emits no message whose
role field is "system" (every emitted role is "user" or "assistant"),
and the top-level system field equals the content of the LAST
System-role message of the list — in particular it is present whenever
the list contains a System-role message. -/
theorem c1_amended_system_hoisting (messages : List Message) :
    (∀ j ∈ (anthropic_format_messages messages).2,
      j.idx "role" ≠ .str "system" ∧
      (j.idx "role" = .str "user" ∨ j.idx "role" = .str "assistant")) ∧
    (anthropic_format_messages messages).1 = spec_lastSystemContent messages ∧
    (∀ m ∈ messages, m.role = .System →
      ∃ s, (anthropic_format_messages messages).1 = some s) := by
  have hroles := anthropic_fold_roles messages (none, []) (by intro j hj; simp at hj)
  refine ⟨?_, ?_, ?_⟩
  · intro j hj
    refine ⟨?_, hroles j hj⟩
    rcases hroles j hj with h | h <;> rw [h] <;> simp
  · rw [anthropic_format_messages, anthropic_fold_system messages (none, [])]
    rw [spec_lastSystemContent]
    cases hf : messages.reverse.find? (fun m => m.role = .System) <;> simp [hf]
  · intro m hm hrole
    rw [anthropic_format_messages, anthropic_fold_system messages (none, [])]
    have hmem : m ∈ messages.reverse := List.mem_reverse.mpr hm
    have hsome : (messages.reverse.find? (fun m => m.role = .System)).isSome := by
      rw [List.find?_isSome]
      exact ⟨m, hmem, by simp [hrole]⟩
    rcases Option.isSome_iff_exists.mp hsome with ⟨m', hm'⟩
    rw [hm']
    exact ⟨m'.content, rfl⟩

/-- Witness for C1 (amended) on the conversation [System "A", User "u"]:
the single emitted message has role "user" (not "system"), and the
system slot holds "A", the last (and only) System message's content. -/
theorem c1_amended_system_hoisting_witness :
    ((Json.obj [("role", Json.str "user"), ("content", Json.str "u")]).idx "role" ≠
        Json.str "system" ∧
      ((Json.obj [("role", Json.str "user"), ("content", Json.str "u")]).idx "role" =
          Json.str "user" ∨
        (Json.obj [("role", Json.str "user"), ("content", Json.str "u")]).idx "role" =
          Json.str "assistant")) ∧
    (anthropic_format_messages
        [⟨.System, "A", none, none⟩, ⟨.User, "u", none, none⟩]).1 =
      spec_lastSystemContent [⟨.System, "A", none, none⟩, ⟨.User, "u", none, none⟩] ∧
    (anthropic_format_messages
        [⟨.System, "A", none, none⟩, ⟨.User, "u", none, none⟩]).1 = some "A" := by
  have h := c1_amended_system_hoisting
    [⟨.System, "A", none, none⟩, ⟨.User, "u", none, none⟩]
  have hmem : (Json.obj [("role", Json.str "user"), ("content", Json.str "u")]) ∈
      (anthropic_format_messages
        [⟨.System, "A", none, none⟩, ⟨.User, "u", none, none⟩]).2 := by
    have hev : (anthropic_format_messages
        [⟨.System, "A", none, none⟩, ⟨.User, "u", none, none⟩]).2 =
        [Json.obj [("role", Json.str "user"), ("content", Json.str "u")]] := rfl
    rw [hev]
    exact List.mem_singleton_self _
  refine ⟨h.1 _ hmem, h.2.1, ?_⟩
  obtain ⟨s, hs⟩ := h.2.2 ⟨.System, "A", none, none⟩ (List.mem_cons_self _ _) rfl
  rw [hs]
  have hsa : some s = some "A" := by rw [← hs]; rfl
  exact hsa

/-- Splitting off the first line strictly shrinks the buffer. -/
theorem splitFirstNL_length : ∀ {buf l r : List Char},
    splitFirstNL buf = some (l, r) → r.length < buf.length := by
  intro buf
  induction buf with
  | nil => intro l r h; simp [splitFirstNL] at h
  | cons c cs ih =>
    intro l r h
    by_cases hc : c = '\n'
    · simp only [splitFirstNL, hc, if_pos, Option.some.injEq, Prod.mk.injEq] at h
      rw [← h.2]
      simp
    · simp only [splitFirstNL, hc, if_neg, ite_false, Option.map_eq_some'] at h
      rcases h with ⟨⟨a, b⟩, hab, hfb⟩
      have hb := ih hab
      have : r = b := by
        have := congrArg Prod.snd hfb
        simpa using this.symm
      rw [this]
      simp only [List.length_cons]
      omega

/-- A newline found in `x` is found at the same place in `x ++ y`. -/
theorem splitFirstNL_append_some : ∀ {x l r : List Char} (y : List Char),
    splitFirstNL x = some (l, r) → splitFirstNL (x ++ y) = some (l, r ++ y) := by
  intro x
  induction x with
  | nil => intro l r y h; simp [splitFirstNL] at h
  | cons c cs ih =>
    intro l r y h
    by_cases hc : c = '\n'
    · simp only [splitFirstNL, hc, if_pos, Option.some.injEq, Prod.mk.injEq] at h
      simp [splitFirstNL, hc, ← h.1, ← h.2]
    · simp only [splitFirstNL, hc, if_neg, ite_false, Option.map_eq_some'] at h
      rcases h with ⟨⟨a, b⟩, hab, hfb⟩
      have hl : l = c :: a := by
        have := congrArg Prod.fst hfb
        simpa using this.symm
      have hr : r = b := by
        have := congrArg Prod.snd hfb
        simpa using this.symm
      simp [splitFirstNL, hc, List.cons_append, ih y hab, hl, hr]

/-- With no newline in `x`, the first newline of `x ++ y` lies in `y`. -/
theorem splitFirstNL_append_none : ∀ {x : List Char} (y : List Char),
    splitFirstNL x = none →
    splitFirstNL (x ++ y) = (splitFirstNL y).map (fun p => (x ++ p.1, p.2)) := by
  intro x
  induction x with
  | nil =>
    intro y _
    simp only [List.nil_append]
    cases h : splitFirstNL y with
    | none => simp [h]
    | some p => simp [h]
  | cons c cs ih =>
    intro y h
    by_cases hc : c = '\n'
    · simp [splitFirstNL, hc] at h
    · simp only [splitFirstNL, hc, if_neg, ite_false] at h
      have hnone : splitFirstNL cs = none := by
        cases hcs : splitFirstNL cs with
        | none => rfl
        | some p => rw [hcs] at h; simp at h
      have step : splitFirstNL ((c :: cs) ++ y) =
          (splitFirstNL (cs ++ y)).map (fun p => (c :: p.1, p.2)) := by
        simp [splitFirstNL, hc]
      rw [step, ih y hnone]
      cases hy : splitFirstNL y with
      | none => simp
      | some p => simp

/-- One-step unfolding of the extraction loop when a newline exists. -/
theorem drainBufferF_succ_some {fuel : Nat} {buf l r : List Char}
    (h : splitFirstNL buf = some (l, r)) :
    drainBufferF (fuel + 1) buf =
      (emitLine l ++ (drainBufferF fuel r).1, (drainBufferF fuel r).2) := by
  simp only [drainBufferF, h]

/-- One-step unfolding of the extraction loop when no newline exists. -/
theorem drainBufferF_succ_none {fuel : Nat} {buf : List Char}
    (h : splitFirstNL buf = none) :
    drainBufferF (fuel + 1) buf = ([], buf) := by
  simp only [drainBufferF, h]

/-- The line-extraction loop is fuel-irrelevant once the fuel exceeds
the buffer length. -/
theorem drainBufferF_congr : ∀ (a : Nat) (buf : List Char) (b : Nat),
    buf.length < a → buf.length < b → drainBufferF a buf = drainBufferF b buf := by
  intro a
  induction a with
  | zero => intro buf b h _; omega
  | succ a ih =>
    intro buf b ha hb
    cases b with
    | zero => omega
    | succ b =>
      cases hs : splitFirstNL buf with
      | none => rw [drainBufferF_succ_none hs, drainBufferF_succ_none hs]
      | some p =>
        obtain ⟨l, r⟩ := p
        have hr := splitFirstNL_length hs
        rw [drainBufferF_succ_some hs, drainBufferF_succ_some hs,
          ih r b (by omega) (by omega)]

/-- `drain` on a newline-free buffer is the identity with no output. -/
theorem drain_of_none {buf : List Char} (h : splitFirstNL buf = none) :
    drain buf = ([], buf) := by
  rw [drain, drainBufferF_succ_none h]

/-- `drain` unfolds one line when a newline is present. -/
theorem drain_of_some {buf l r : List Char} (h : splitFirstNL buf = some (l, r)) :
    drain buf = (emitLine l ++ (drain r).1, (drain r).2) := by
  have hlen := splitFirstNL_length h
  simp only [drain]
  rw [drainBufferF_succ_some h,
    drainBufferF_congr buf.length r (r.length + 1) hlen (by omega)]

/-- Incremental-processing decomposition: draining `x ++ y` emits the
chunks of `x`, then the chunks of the leftover of `x` followed by `y`. -/
theorem drain_append : ∀ (n : Nat) (x y : List Char), x.length ≤ n →
    drain (x ++ y) =
      ((drain x).1 ++ (drain ((drain x).2 ++ y)).1, (drain ((drain x).2 ++ y)).2) := by
  intro n
  induction n with
  | zero =>
    intro x y hx
    have hnil : x = [] := List.length_eq_zero.mp (by omega)
    subst hnil
    have h0 : drain ([] : List Char) = ([], []) := rfl
    simp [h0]
  | succ n ih =>
    intro x y hx
    cases hs : splitFirstNL x with
    | none =>
      rw [drain_of_none hs]
      simp only []
      simp
    | some p =>
      obtain ⟨l, r⟩ := p
      have hxy := splitFirstNL_append_some y hs
      rw [drain_of_some hs, drain_of_some hxy]
      have hr : r.length ≤ n := by
        have := splitFirstNL_length hs
        omega
      rw [ih r y hr]
      simp

/-- Delivering two chunks is the same as delivering their
concatenation. -/
theorem processChunks_split (a b : List Char) :
    processChunks [a, b] [] = processChunks [a ++ b] [] := by
  simp only [processChunks, List.nil_append, List.append_nil]
  rw [drain_append a.length a b le_rfl]

/-- C4: the streaming adapter fed the two newline-terminated records as
one byte chunk yields exactly [("Hel", false), ("lo", true)]; splitting
the same bytes into two chunks at any byte offset inside the second
line (offsets 43–83 of the 84-byte input) yields the identical chunk
sequence. -/
theorem c4_stream_adapter_chunking :
    ollama_stream_chunks [ollamaTwoLineInput] = [⟨"Hel", false⟩, ⟨"lo", true⟩] ∧
    ∀ k : Nat, 43 ≤ k → k ≤ 83 →
      ollama_stream_chunks [ollamaTwoLineInput.take k, ollamaTwoLineInput.drop k] =
        [⟨"Hel", false⟩, ⟨"lo", true⟩] := by
  have hone : ollama_stream_chunks [ollamaTwoLineInput] =
      [⟨"Hel", false⟩, ⟨"lo", true⟩] := by decide
  refine ⟨hone, ?_⟩
  intro k _ _
  calc ollama_stream_chunks [ollamaTwoLineInput.take k, ollamaTwoLineInput.drop k]
      = ollama_stream_chunks [ollamaTwoLineInput.take k ++ ollamaTwoLineInput.drop k] :=
        processChunks_split _ _
    _ = ollama_stream_chunks [ollamaTwoLineInput] := by rw [List.take_append_drop]
    _ = [⟨"Hel", false⟩, ⟨"lo", true⟩] := hone

/-- Witness for C4 at split offset 50 (inside the second line). -/
theorem c4_stream_adapter_chunking_witness :
    ollama_stream_chunks [ollamaTwoLineInput.take 50, ollamaTwoLineInput.drop 50] =
      [⟨"Hel", false⟩, ⟨"lo", true⟩] :=
  c4_stream_adapter_chunking.2 50 (by omega) (by omega)

/-- C6: starting from a fresh store,
`set_cli_session_id("main","s1","claude-cli","tok")` followed by a
reload from disk makes `get_cli_session_id("main","claude-cli")` return
"tok"; a subsequent clear of the claude-cli token (which also clears
the legacy mirror field) makes it return `none` after reload, while the
"main" entry still exists with its session id ("s1") and its timestamp
(the clear's refresh time) present. -/
theorem c6_session_store_roundtrip (t1 t2 : Nat) :
    (SessionStore.load
        (((SessionStore.load none).set_cli_session_id "main" "s1" "claude-cli" "tok"
          t1).save)).get_cli_session_id "main" "claude-cli" = some "tok" ∧
    (SessionStore.load
        (clear_cli_session_from_store
          (((SessionStore.load none).set_cli_session_id "main" "s1" "claude-cli" "tok"
            t1).save) "main" "claude-cli" t2)).get_cli_session_id "main" "claude-cli" =
      none ∧
    ∃ e, (SessionStore.load
        (clear_cli_session_from_store
          (((SessionStore.load none).set_cli_session_id "main" "s1" "claude-cli" "tok"
            t1).save) "main" "claude-cli" t2)).get "main" = some e ∧
      e.session_id = "s1" ∧ e.updated_at = t2 :=
  ⟨rfl, rfl, ⟨_, rfl, rfl, rfl⟩⟩

end LocalGPT
